import Mathlib

/-!
Shallow embedding of `src/main.py` (Galileo Asset Tokeniser API).

The program keeps two in-memory lists (`assets_db`, `pnfts_db`) and two
auto-incrementing counters (`asset_counter`, `pnft_counter`) as process
globals; every handler reads and mutates that global state.  We model the
globals as an explicit `AppState` record threaded through the handlers,
Python `raise HTTPException` as `Except HTTPException`, and the wall clock
(`datetime.now().isoformat()`) as an explicit `now : String` argument.
-/

namespace Galileo

/-- Python `class Asset(BaseModel)` of `src/main.py` (the stored record, `id` set). -/
structure Asset where
  id : Nat
  name : String
  serial_number : String
  description : String
  owner : String
deriving Repr, DecidableEq

/-- Python `class AssetCreate(BaseModel)` of `src/main.py` (request body). -/
structure AssetCreate where
  name : String
  serial_number : String
  description : String
  owner : String
deriving Repr, DecidableEq

/-- Python `class pNFT(BaseModel)` of `src/main.py` (the stored record, `id` set). -/
structure pNFT where
  id : Nat
  asset_id : Nat
  token_uri : String
  issued_date : String
  current_owner : String
deriving Repr, DecidableEq

/-- Python `class pNFTCreate(BaseModel)` of `src/main.py` (request body). -/
structure pNFTCreate where
  asset_id : Nat
  token_uri : String
  current_owner : String
deriving Repr, DecidableEq

/-- Python `class pNFTTransfer(BaseModel)` of `src/main.py` (request body). -/
structure pNFTTransfer where
  new_owner : String
deriving Repr, DecidableEq

/-- The `fastapi.HTTPException(status_code=..., detail=...)` as raised in `src/main.py`. -/
structure HTTPException where
  status_code : Nat
  detail : String
deriving Repr, DecidableEq

/-- The module-level mutable globals of `src/main.py`:
`assets_db = []`, `pnfts_db = []`, `asset_counter = 0`, `pnft_counter = 0`. -/
structure AppState where
  assets_db : List Asset
  pnfts_db : List pNFT
  asset_counter : Nat
  pnft_counter : Nat
deriving Repr, DecidableEq

/-- The initial global state of the process. -/
def initState : AppState := ⟨[], [], 0, 0⟩

/-- Helper `get_asset_by_id` of `src/main.py`: linear scan of `assets_db`,
first record whose `id` matches, else `None`. -/
def get_asset_by_id (s : AppState) (asset_id : Nat) : Option Asset :=
  s.assets_db.find? (fun asset => asset.id == asset_id)

/-- Helper `get_pnft_by_id` of `src/main.py`: linear scan of `pnfts_db`,
first record whose `id` matches, else `None`. -/
def get_pnft_by_id (s : AppState) (pnft_id : Nat) : Option pNFT :=
  s.pnfts_db.find? (fun pnft => pnft.id == pnft_id)

/-- The detail string `f"Asset with ID {asset_id} not found"` of `src/main.py`. -/
def assetNotFoundDetail (asset_id : Nat) : String :=
  "Asset with ID " ++ toString asset_id ++ " not found"

/-- The detail string `f"pNFT with ID {pnft_id} not found"` of `src/main.py`. -/
def pnftNotFoundDetail (pnft_id : Nat) : String :=
  "pNFT with ID " ++ toString pnft_id ++ " not found"

/-- Handler `create_asset` of `src/main.py`: increment `asset_counter`, build the
record, append it to `assets_db`, return it.  Never raises. -/
def create_asset (s : AppState) (asset : AssetCreate) : Asset × AppState :=
  let c := s.asset_counter + 1
  let new_asset : Asset :=
    { id := c
      name := asset.name
      serial_number := asset.serial_number
      description := asset.description
      owner := asset.owner }
  (new_asset, { s with asset_counter := c, assets_db := s.assets_db ++ [new_asset] })

/-- Handler `create_pnft` of `src/main.py`: 404 if the referenced asset does not
resolve, otherwise increment `pnft_counter`, build the record (stamping
`issued_date` with the current time, here the explicit `now`), append it
to `pnfts_db`, return it. -/
def create_pnft (s : AppState) (pnft : pNFTCreate) (now : String) :
    Except HTTPException (pNFT × AppState) :=
  match get_asset_by_id s pnft.asset_id with
  | none => .error ⟨404, assetNotFoundDetail pnft.asset_id⟩
  | some _ =>
    let c := s.pnft_counter + 1
    let new_pnft : pNFT :=
      { id := c
        asset_id := pnft.asset_id
        token_uri := pnft.token_uri
        issued_date := now
        current_owner := pnft.current_owner }
    .ok (new_pnft, { s with pnft_counter := c, pnfts_db := s.pnfts_db ++ [new_pnft] })

/-- Handler `list_pnfts` of `src/main.py`.  The Python guard is `if owner:` on an
`Optional[str]`, which is falsy for both `None` and the empty string, so
only a non-empty filter actually filters. -/
def list_pnfts (s : AppState) (owner : Option String) : List pNFT :=
  match owner with
  | some o =>
    if o = "" then s.pnfts_db
    else s.pnfts_db.filter (fun pnft => pnft.current_owner == o)
  | none => s.pnfts_db

/-- Handler `get_pnft` of `src/main.py`: lookup or 404. -/
def get_pnft (s : AppState) (pnft_id : Nat) : Except HTTPException pNFT :=
  match get_pnft_by_id s pnft_id with
  | none => .error ⟨404, pnftNotFoundDetail pnft_id⟩
  | some pnft => .ok pnft

/-- The replacement loop of `transfer_pnft` in `src/main.py`:
`for i, stored_pnft in enumerate(pnfts_db): if stored_pnft.id == pnft_id:
pnfts_db[i] = pnft; break` — replace the FIRST record with matching id. -/
def replaceFirstById (db : List pNFT) (pnft_id : Nat) (upd : pNFT) : List pNFT :=
  match db with
  | [] => []
  | q :: rest =>
    if q.id == pnft_id then upd :: rest
    else q :: replaceFirstById rest pnft_id upd

/-- Handler `transfer_pnft` of `src/main.py`: 404 if the id is unknown, otherwise
set `current_owner` on the found record, write it back at the first
position with that id, and return the updated record. -/
def transfer_pnft (s : AppState) (pnft_id : Nat) (transfer : pNFTTransfer) :
    Except HTTPException (pNFT × AppState) :=
  match get_pnft_by_id s pnft_id with
  | none => .error ⟨404, pnftNotFoundDetail pnft_id⟩
  | some pnft =>
    let upd := { pnft with current_owner := transfer.new_owner }
    .ok (upd, { s with pnfts_db := replaceFirstById s.pnfts_db pnft_id upd })

/-- Handler `list_assets` of `src/main.py`: the whole store in insertion order. -/
def list_assets (s : AppState) : List Asset := s.assets_db

/-- Handler `get_asset` of `src/main.py`: lookup or 404. -/
def get_asset (s : AppState) (asset_id : Nat) : Except HTTPException Asset :=
  match get_asset_by_id s asset_id with
  | none => .error ⟨404, assetNotFoundDetail asset_id⟩
  | some asset => .ok asset

/-- One API request, as dispatched by the FastAPI routes of `src/main.py`.
`createPnft` carries the wall-clock reading used for `issued_date`. -/
inductive Op where
  | createAsset (asset : AssetCreate)
  | createPnft (pnft : pNFTCreate) (now : String)
  | listPnfts (owner : Option String)
  | getPnft (pnft_id : Nat)
  | transferPnft (pnft_id : Nat) (transfer : pNFTTransfer)
  | listAssets
  | getAsset (asset_id : Nat)
deriving Repr, DecidableEq

/-- Effect of one request on the global state.  Reads and failed requests
leave the globals untouched (`raise` aborts the handler before mutation). -/
def step (s : AppState) : Op → AppState
  | .createAsset asset => (create_asset s asset).2
  | .createPnft pnft now =>
    match create_pnft s pnft now with
    | .ok (_, s') => s'
    | .error _ => s
  | .transferPnft pnft_id transfer =>
    match transfer_pnft s pnft_id transfer with
    | .ok (_, s') => s'
    | .error _ => s
  | .listPnfts _ => s
  | .getPnft _ => s
  | .listAssets => s
  | .getAsset _ => s

/-- The global state after a sequence of requests from process start. -/
def run (ops : List Op) : AppState := ops.foldl step initState

/-- Helper `generate_token_uri` of `src/main.py`:
`f"ipfs://Qm{str(uuid.uuid4()).replace('-', '')[:44]}"`.
The randomness is made explicit: `u` stands for `str(uuid.uuid4())`;
`.replace('-', '')` is a character filter and `[:44]` a character take. -/
def generate_token_uri (u : String) : String :=
  "ipfs://Qm" ++ String.mk ((u.data.filter (fun c => c != '-')).take 44)

/-- Lowercase hexadecimal digit, the alphabet of `str(uuid.uuid4())`
besides the hyphens. -/
def hexLower (c : Char) : Bool :=
  c.isDigit || ('a' ≤ c && c ≤ 'f')

/-- Hex-like character in the sense of the interface description:
a hexadecimal digit of either case. -/
def hexLike (c : Char) : Bool :=
  hexLower c || ('A' ≤ c && c ≤ 'F')

/-- Modelled from the spec: the shape of `str(uuid.uuid4())`, which is not
code of this repository (Python standard library).  A UUID4 prints as 36
characters; removing the hyphens leaves its 32 lowercase hex digits. -/
def isUuid4Repr (u : String) : Bool :=
  u.data.length == 36 &&
  (u.data.filter (fun c => c != '-')).length == 32 &&
  (u.data.filter (fun c => c != '-')).all hexLower

/-- Predicate: `t` is `ipfs://Qm` followed by exactly `n` hex-like characters. -/
def hasTokenUriForm (n : Nat) (t : String) : Prop :=
  ∃ h : List Char, t.data = "ipfs://Qm".data ++ h ∧ h.length = n ∧ h.all hexLike = true

/-! Concrete inputs used by witnesses and counterexamples. -/

/-- A one-asset, one-pNFT state, as after creating asset 1 and pNFT 1. -/
def c1State : AppState :=
  ⟨[⟨1, "Watch", "SN1", "Luxury watch", "Alice"⟩],
   [⟨1, 1, "ipfs://x", "2024-01-01T00:00:00", "Alice"⟩], 1, 1⟩

/-- The pNFT stored in `c1State`. -/
def c1Pnft : pNFT := ⟨1, 1, "ipfs://x", "2024-01-01T00:00:00", "Alice"⟩

/-- A state holding one pNFT owned by a non-empty owner string. -/
def c3State : AppState :=
  ⟨[⟨1, "Watch", "SN1", "Luxury watch", "Alice"⟩],
   [⟨1, 1, "ipfs://x", "2024-01-01T00:00:00", "Alice"⟩], 1, 1⟩

/-- Requests: create one asset, then tokenize it. -/
def c4Ops : List Op :=
  [.createAsset ⟨"Watch", "SN1", "Luxury watch", "Alice"⟩,
   .createPnft ⟨1, "ipfs://x", "Alice"⟩ "t1"]

/-- A further tokenization request against asset 1. -/
def c4Req : pNFTCreate := ⟨1, "ipfs://y", "Bob"⟩

/-- The record `create_pnft (run c4Ops) c4Req ("t2")` returns. -/
def c4Rec : pNFT := ⟨2, 1, "ipfs://y", "t2", "Bob"⟩

/-- The state `create_pnft (run c4Ops) c4Req ("t2")` produces. -/
def c4State : AppState :=
  ⟨[⟨1, "Watch", "SN1", "Luxury watch", "Alice"⟩],
   [⟨1, 1, "ipfs://x", "t1", "Alice"⟩, ⟨2, 1, "ipfs://y", "t2", "Bob"⟩], 1, 2⟩

/-- The pNFT stored by running `c4Ops`. -/
def c4Stored : pNFT := ⟨1, 1, "ipfs://x", "t1", "Alice"⟩

/-- A sample `str(uuid.uuid4())` value. -/
def uuidEx : String := "123e4567-e89b-42d3-a456-426614174000"

/-- The error `create_pnft` raises for asset id 1 on an empty store. -/
def c8Err : HTTPException := ⟨404, assetNotFoundDetail 1⟩

/-- The error `get_pnft` raises for pNFT id 1 on an empty store. -/
def c8Err2 : HTTPException := ⟨404, pnftNotFoundDetail 1⟩

/-- A tokenization request against a nonexistent asset. -/
def c10Req : pNFTCreate := ⟨7, "ipfs://z", "Carol"⟩

/-- State invariant maintained by every handler: each store's ids are
exactly `1..length` in order, each counter equals its store's length, and
every pNFT references an asset present in the asset store. -/
def Inv (s : AppState) : Prop :=
  s.assets_db.map (fun a => a.id) = List.range' 1 s.assets_db.length ∧
  s.asset_counter = s.assets_db.length ∧
  s.pnfts_db.map (fun p => p.id) = List.range' 1 s.pnfts_db.length ∧
  s.pnft_counter = s.pnfts_db.length ∧
  ∀ p ∈ s.pnfts_db, ∃ a ∈ s.assets_db, a.id = p.asset_id

theorem inv_initState : Inv initState := by
  refine ⟨rfl, rfl, rfl, rfl, ?_⟩
  intro p hp
  simp [initState] at hp

theorem map_id_replaceFirstById (db : List pNFT) (i : Nat) (upd : pNFT)
    (h : upd.id = i) :
    (replaceFirstById db i upd).map (fun p => p.id) = db.map (fun p => p.id) := by
  induction db with
  | nil => rfl
  | cons q rest ih =>
    simp only [replaceFirstById]
    split
    · rename_i hq
      simp only [beq_iff_eq] at hq
      simp [h, hq]
    · simp [ih]

theorem mem_replaceFirstById {q : pNFT} {db : List pNFT} {i : Nat} {upd : pNFT}
    (h : q ∈ replaceFirstById db i upd) : q ∈ db ∨ q = upd := by
  induction db with
  | nil => simp [replaceFirstById] at h
  | cons r rest ih =>
    simp only [replaceFirstById] at h
    split at h
    · rcases List.mem_cons.mp h with h1 | h1
      · right; exact h1
      · left; exact List.mem_cons_of_mem _ h1
    · rcases List.mem_cons.mp h with h1 | h1
      · left; simp [h1]
      · rcases ih h1 with h2 | h2
        · left; exact List.mem_cons_of_mem _ h2
        · right; exact h2

theorem find?_replaceFirstById {db : List pNFT} {i : Nat} {p upd : pNFT}
    (hf : db.find? (fun q => q.id == i) = some p) (hu : upd.id = i) :
    (replaceFirstById db i upd).find? (fun q => q.id == i) = some upd := by
  induction db with
  | nil => simp at hf
  | cons r rest ih =>
    simp only [replaceFirstById]
    split
    · rename_i hq
      simp [List.find?_cons, hu]
    · rename_i hq
      rw [Bool.not_eq_true] at hq
      simp only [List.find?_cons, hq] at hf ⊢
      exact ih hf

theorem mem_ids_bounds {db : List Nat} {n x : Nat}
    (h : db = List.range' 1 n) (hx : x ∈ db) : 1 ≤ x ∧ x ≤ n := by
  subst h
  rcases List.mem_range'_1.mp hx with ⟨h1, h2⟩
  exact ⟨h1, by omega⟩

theorem asset_id_le_counter {s : AppState} (hInv : Inv s) {a : Asset}
    (ha : a ∈ s.assets_db) : 1 ≤ a.id ∧ a.id ≤ s.asset_counter := by
  obtain ⟨h1, h2, -, -, -⟩ := hInv
  have : a.id ∈ s.assets_db.map (fun a => a.id) := List.mem_map_of_mem _ ha
  rw [h2]
  exact mem_ids_bounds h1 this

theorem pnft_id_le_counter {s : AppState} (hInv : Inv s) {p : pNFT}
    (hp : p ∈ s.pnfts_db) : 1 ≤ p.id ∧ p.id ≤ s.pnft_counter := by
  obtain ⟨-, -, h1, h2, -⟩ := hInv
  have : p.id ∈ s.pnfts_db.map (fun p => p.id) := List.mem_map_of_mem _ hp
  rw [h2]
  exact mem_ids_bounds h1 this

theorem find?_fresh_asset_id {s : AppState} (hInv : Inv s) :
    s.assets_db.find? (fun a => a.id == s.asset_counter + 1) = none := by
  rw [List.find?_eq_none]
  intro a ha
  have := (asset_id_le_counter hInv ha).2
  simp only [beq_iff_eq]
  omega

theorem find?_fresh_pnft_id {s : AppState} (hInv : Inv s) :
    s.pnfts_db.find? (fun p => p.id == s.pnft_counter + 1) = none := by
  rw [List.find?_eq_none]
  intro p hp
  have := (pnft_id_le_counter hInv hp).2
  simp only [beq_iff_eq]
  omega

theorem inv_step (s : AppState) (op : Op) (h : Inv s) : Inv (step s op) := by
  obtain ⟨ha1, ha2, hp1, hp2, href⟩ := h
  cases op with
  | createAsset asset =>
    refine ⟨?_, ?_, hp1, hp2, ?_⟩
    · simp only [step, create_asset, List.map_append, List.length_append, ha1, ha2,
        List.length_singleton]
      rw [List.range'_concat]
      simp
      omega
    · simp [step, create_asset, ha2]
    · intro p hp
      rcases href p hp with ⟨a, haMem, haEq⟩
      exact ⟨a, by simp [step, create_asset]; exact Or.inl haMem, haEq⟩
  | createPnft pnft now =>
    simp only [step]
    cases hc : create_pnft s pnft now with
    | error e => exact ⟨ha1, ha2, hp1, hp2, href⟩
    | ok v =>
      obtain ⟨r, s'⟩ := v
      simp only [create_pnft] at hc
      cases hlook : get_asset_by_id s pnft.asset_id with
      | none => rw [hlook] at hc; cases hc
      | some a =>
        rw [hlook] at hc
        simp only [Except.ok.injEq, Prod.mk.injEq] at hc
        obtain ⟨hr, hs'⟩ := hc
        subst hs'
        refine ⟨ha1, ha2, ?_, ?_, ?_⟩
        · simp only [List.map_append, List.length_append, hp1, hp2,
            List.length_singleton]
          rw [List.range'_concat]
          simp
          omega
        · simp [hp2]
        · intro p hp
          rcases List.mem_append.mp hp with hmem | hmem
          · exact href p hmem
          · have haMem : a ∈ s.assets_db := List.mem_of_find?_eq_some hlook
            have haId : a.id = pnft.asset_id := by
              have := List.find?_some hlook
              simpa using this
            simp only [List.mem_singleton] at hmem
            subst hmem
            exact ⟨a, haMem, haId⟩
  | transferPnft pnft_id transfer =>
    simp only [step]
    cases hc : transfer_pnft s pnft_id transfer with
    | error e => exact ⟨ha1, ha2, hp1, hp2, href⟩
    | ok v =>
      obtain ⟨r, s'⟩ := v
      simp only [transfer_pnft] at hc
      cases hlook : get_pnft_by_id s pnft_id with
      | none => rw [hlook] at hc; cases hc
      | some p0 =>
        rw [hlook] at hc
        simp only [Except.ok.injEq, Prod.mk.injEq] at hc
        obtain ⟨hr, hs'⟩ := hc
        subst hs'
        have hp0id : p0.id = pnft_id := by
          have := List.find?_some hlook
          simpa using this
        have hmap := map_id_replaceFirstById s.pnfts_db pnft_id
          { p0 with current_owner := transfer.new_owner } (by simpa using hp0id)
        have hlen : (replaceFirstById s.pnfts_db pnft_id
            { p0 with current_owner := transfer.new_owner }).length = s.pnfts_db.length := by
          have := congrArg List.length hmap
          simpa using this
        refine ⟨ha1, ha2, ?_, ?_, ?_⟩
        · simpa [hlen] using hmap.trans hp1
        · simpa [hlen] using hp2
        · intro p hp
          rcases mem_replaceFirstById hp with hmem | hmem
          · exact href p hmem
          · subst hmem
            have hp0 : p0 ∈ s.pnfts_db := List.mem_of_find?_eq_some hlook
            rcases href p0 hp0 with ⟨a, haMem, haEq⟩
            exact ⟨a, haMem, haEq⟩
  | listPnfts owner => exact ⟨ha1, ha2, hp1, hp2, href⟩
  | getPnft pnft_id => exact ⟨ha1, ha2, hp1, hp2, href⟩
  | listAssets => exact ⟨ha1, ha2, hp1, hp2, href⟩
  | getAsset asset_id => exact ⟨ha1, ha2, hp1, hp2, href⟩

theorem inv_foldl (ops : List Op) (s : AppState) (h : Inv s) :
    Inv (ops.foldl step s) := by
  induction ops generalizing s with
  | nil => exact h
  | cons op rest ih => exact ih _ (inv_step s op h)

theorem inv_run (ops : List Op) : Inv (run ops) :=
  inv_foldl ops initState inv_initState

/-- C1: for every pNFT id present in the store, `transfer_pnft` succeeds,
sets `current_owner` to the new owner, leaves `id`, `asset_id`,
`token_uri` and `issued_date` unchanged, returns the updated record, and
a subsequent `get_pnft` on the same id returns a record whose
`current_owner` is the new owner. -/
theorem C1_transfer_frame (s : AppState) (pnft_id : Nat) (new_owner : String)
    (p : pNFT) (h : get_pnft_by_id s pnft_id = some p) :
    ∃ r s', transfer_pnft s pnft_id ⟨new_owner⟩ = .ok (r, s') ∧
      r.current_owner = new_owner ∧
      r.id = p.id ∧ r.asset_id = p.asset_id ∧
      r.token_uri = p.token_uri ∧ r.issued_date = p.issued_date ∧
      ∃ q, get_pnft s' pnft_id = .ok q ∧ q.current_owner = new_owner := by
  have hpid : p.id = pnft_id := by
    have := List.find?_some h
    simpa using this
  refine ⟨{ p with current_owner := new_owner },
    { s with pnfts_db :=
        replaceFirstById s.pnfts_db pnft_id { p with current_owner := new_owner } },
    ?_, rfl, rfl, rfl, rfl, rfl, ?_⟩
  · simp [transfer_pnft, h]
  · refine ⟨{ p with current_owner := new_owner }, ?_, rfl⟩
    have hfind := @find?_replaceFirstById s.pnfts_db pnft_id p
      { p with current_owner := new_owner } h (by simpa using hpid)
    simp [get_pnft, get_pnft_by_id, hfind]

/-- C1 witness: transferring the stored pNFT 1 of `c1State` to Bob. -/
theorem C1_transfer_frame_witness :
    ∃ r s', transfer_pnft c1State 1 ⟨"Bob"⟩ = .ok (r, s') ∧
      r.current_owner = "Bob" ∧
      r.id = c1Pnft.id ∧ r.asset_id = c1Pnft.asset_id ∧
      r.token_uri = c1Pnft.token_uri ∧ r.issued_date = c1Pnft.issued_date ∧
      ∃ q, get_pnft s' 1 = .ok q ∧ q.current_owner = "Bob" :=
  C1_transfer_frame c1State 1 "Bob" c1Pnft (by decide)

/-- C2: creating a pNFT whose `asset_id` resolves to no stored asset
fails with the 404 NotFound error and leaves the whole state — in
particular the pNFT store — unchanged. -/
theorem C2_create_pnft_not_found (s : AppState) (pnft : pNFTCreate) (now : String)
    (h : get_asset_by_id s pnft.asset_id = none) :
    create_pnft s pnft now = .error ⟨404, assetNotFoundDetail pnft.asset_id⟩ ∧
    step s (.createPnft pnft now) = s := by
  constructor
  · simp [create_pnft, h]
  · simp [step, create_pnft, h]

/-- C2 witness: tokenizing asset 1 on the empty initial store fails and
changes nothing. -/
theorem C2_create_pnft_not_found_witness :
    create_pnft initState ⟨1, "ipfs://x", "Alice"⟩ "t" =
      .error ⟨404, assetNotFoundDetail 1⟩ ∧
    step initState (.createPnft ⟨1, "ipfs://x", "Alice"⟩ "t") = initState :=
  C2_create_pnft_not_found initState ⟨1, "ipfs://x", "Alice"⟩ "t" (by decide)

/-- C3 counterexample: with the owner filter supplied as the empty string,
the code returns the whole store, not the sublist of pNFTs whose
`current_owner` equals the (empty) filter string. -/
theorem C3_counterexample :
    list_pnfts c3State (some ("")) ≠
      c3State.pnfts_db.filter (fun p => p.current_owner == "") := by
  decide

/-- C3 (amended): for every NON-EMPTY owner filter string, the pNFT List
operation returns exactly the sublist of stored pNFTs whose
`current_owner` equals the filter, in insertion order; with no filter
supplied it returns all stored pNFTs. -/
theorem C3_list_filter (s : AppState) (o : String) :
    (o ≠ "" → list_pnfts s (some o) =
      s.pnfts_db.filter (fun p => p.current_owner == o)) ∧
    list_pnfts s none = s.pnfts_db := by
  constructor
  · intro ho
    simp [list_pnfts, ho]
  · rfl

/-- C3 witness: filtering `c3State` by the non-empty owner "Bob". -/
theorem C3_list_filter_witness :
    list_pnfts c3State (some ("Bob")) =
      c3State.pnfts_db.filter (fun p => p.current_owner == "Bob") :=
  (C3_list_filter c3State ("Bob")).1 (by decide)

/-- C9: supplying the empty string as the owner filter returns every
stored pNFT (the Python guard `if owner:` treats `""` as no filter),
whatever the stored owners are. -/
theorem C9_empty_filter (s : AppState) : list_pnfts s (some ("")) = s.pnfts_db := by
  simp [list_pnfts]

/-- C4: in every reachable state, a successful Create of either store
assigns the id `counter + 1`, which is positive and strictly greater
than the id of every record already in that store — so ids start at 1,
grow in creation order, and are never reused. -/
theorem C4_sequential_ids (ops : List Op) (asset : AssetCreate)
    (pnft : pNFTCreate) (now : String) :
    (1 ≤ (create_asset (run ops) asset).1.id ∧
     (create_asset (run ops) asset).1.id = (run ops).asset_counter + 1 ∧
     ∀ a ∈ (run ops).assets_db, a.id < (create_asset (run ops) asset).1.id) ∧
    (∀ r s', create_pnft (run ops) pnft now = .ok (r, s') →
      1 ≤ r.id ∧ r.id = (run ops).pnft_counter + 1 ∧
      ∀ p ∈ (run ops).pnfts_db, p.id < r.id) := by
  have hInv := inv_run ops
  constructor
  · refine ⟨by simp [create_asset], by simp [create_asset], ?_⟩
    intro a ha
    have := (asset_id_le_counter hInv ha).2
    simp only [create_asset]
    omega
  · intro r s' hok
    simp only [create_pnft] at hok
    cases hlook : get_asset_by_id (run ops) pnft.asset_id with
    | none => rw [hlook] at hok; cases hok
    | some a =>
      rw [hlook] at hok
      simp only [Except.ok.injEq, Prod.mk.injEq] at hok
      obtain ⟨hr, -⟩ := hok
      refine ⟨?_, ?_, ?_⟩
      · rw [← hr]; simp
      · rw [← hr]
      · intro p hp
        have := (pnft_id_le_counter hInv hp).2
        rw [← hr]
        simp only []
        omega

/-- C4 witness: after creating asset 1 and pNFT 1, tokenizing again
yields id 2, strictly above the stored pNFT's id 1. -/
theorem C4_sequential_ids_witness :
    1 ≤ c4Rec.id ∧ c4Rec.id = (run c4Ops).pnft_counter + 1 ∧
    c4Stored.id < c4Rec.id := by
  have h := (C4_sequential_ids c4Ops ⟨"W", "S", "D", "O"⟩ c4Req ("t2")).2
    c4Rec c4State (by rfl)
  exact ⟨h.1, h.2.1, h.2.2 c4Stored (by decide)⟩

/-- C5: in every reachable state, every stored pNFT's `asset_id` is the
id of some asset present in the asset store. -/
theorem C5_referential_integrity (ops : List Op) (p : pNFT)
    (hp : p ∈ (run ops).pnfts_db) :
    ∃ a ∈ (run ops).assets_db, a.id = p.asset_id :=
  (inv_run ops).2.2.2.2 p hp

/-- C5 witness: the pNFT stored by `c4Ops` references a stored asset. -/
theorem C5_referential_integrity_witness :
    ∃ a ∈ (run c4Ops).assets_db, a.id = c4Stored.asset_id :=
  C5_referential_integrity c4Ops c4Stored (by decide)

/-- C6: in every reachable state, creating an asset always succeeds with
the next sequential id and exactly the supplied field values, and
fetching the returned id returns exactly the created record. -/
theorem C6_create_then_get (ops : List Op) (asset : AssetCreate) :
    (create_asset (run ops) asset).1.name = asset.name ∧
    (create_asset (run ops) asset).1.serial_number = asset.serial_number ∧
    (create_asset (run ops) asset).1.description = asset.description ∧
    (create_asset (run ops) asset).1.owner = asset.owner ∧
    (create_asset (run ops) asset).1.id = (run ops).asset_counter + 1 ∧
    get_asset (create_asset (run ops) asset).2 (create_asset (run ops) asset).1.id =
      .ok (create_asset (run ops) asset).1 := by
  have hInv := inv_run ops
  refine ⟨rfl, rfl, rfl, rfl, rfl, ?_⟩
  have hnone := find?_fresh_asset_id hInv
  simp [get_asset, get_asset_by_id, create_asset, List.find?_append, hnone]

/-- C10: a failed pNFT creation leaves the whole state (in particular the
pNFT counter) unchanged, and in every reachable state the ids of the
stored pNFTs are exactly the consecutive integers `1..n` in order, `n`
the store's size — likewise for assets. -/
theorem C10_consecutive_ids (ops : List Op) (s : AppState)
    (pnft : pNFTCreate) (now : String) (e : HTTPException) :
    (create_pnft s pnft now = .error e → step s (.createPnft pnft now) = s) ∧
    (run ops).pnfts_db.map (fun p => p.id) =
      List.range' 1 (run ops).pnfts_db.length ∧
    (run ops).assets_db.map (fun a => a.id) =
      List.range' 1 (run ops).assets_db.length := by
  have hInv := inv_run ops
  refine ⟨?_, hInv.2.2.1, hInv.1⟩
  intro h
  simp [step, h]

/-- C10 witness: tokenizing the nonexistent asset 7 after `c4Ops` fails
and leaves the state unchanged; the stored pNFT ids are `[1]`. -/
theorem C10_consecutive_ids_witness :
    step (run c4Ops) (.createPnft c10Req ("t3")) = run c4Ops ∧
    (run c4Ops).pnfts_db.map (fun p => p.id) =
      List.range' 1 (run c4Ops).pnfts_db.length := by
  have h := C10_consecutive_ids c4Ops (run c4Ops) c10Req ("t3")
    ⟨404, assetNotFoundDetail 7⟩
  exact ⟨h.1 (by rfl), h.2.1⟩

theorem toString_within_assetDetail (i : Nat) :
    (toString i).data <:+: (assetNotFoundDetail i).data :=
  ⟨"Asset with ID ".data, " not found".data, by
    simp [assetNotFoundDetail, String.data_append]⟩

theorem toString_within_pnftDetail (i : Nat) :
    (toString i).data <:+: (pnftNotFoundDetail i).data :=
  ⟨"pNFT with ID ".data, " not found".data, by
    simp [pnftNotFoundDetail, String.data_append]⟩

/-- C7 counterexample: `uuidEx` is a well-formed `str(uuid.uuid4())`
value, yet the generated token URI is NOT `ipfs://Qm` followed by 44
hex-like characters — a UUID only has 32 hex digits once the hyphens are
stripped, so the `[:44]` slice falls short. -/
theorem C7_counterexample :
    isUuid4Repr uuidEx = true ∧
    ¬ hasTokenUriForm 44 (generate_token_uri uuidEx) := by
  refine ⟨by decide, ?_⟩
  rintro ⟨h, he, hl, -⟩
  have hlen := congrArg List.length he
  rw [List.length_append, hl] at hlen
  have h41 : (generate_token_uri uuidEx).data.length = 41 := by decide
  have h9 : ("ipfs://Qm".data).length = 9 := by decide
  rw [h41, h9] at hlen
  omega

/-- C7 (amended): every string the helper returns for a well-formed
`str(uuid.uuid4())` input is `ipfs://Qm` followed by the UUID's 32
hex-like characters (the `[:44]` slice returns the whole 32-character
string), not 44. -/
theorem C7_token_uri_form (u : String) (h : isUuid4Repr u = true) :
    hasTokenUriForm 32 (generate_token_uri u) := by
  simp only [isUuid4Repr, Bool.and_eq_true, beq_iff_eq] at h
  obtain ⟨⟨h36, h32⟩, hall⟩ := h
  refine ⟨u.data.filter (fun c => c != '-'), ?_, h32, ?_⟩
  · simp only [generate_token_uri, String.data_append]
    congr 1
    show (u.data.filter (fun c => c != '-')).take 44 = _
    exact List.take_of_length_le (by omega)
  · rw [List.all_eq_true] at hall ⊢
    intro c hc
    have := hall c hc
    simp [hexLike, this]

/-- C7 witness: the token URI generated from `uuidEx` has the
`ipfs://Qm` + 32 hex-like characters form. -/
theorem C7_token_uri_form_witness :
    hasTokenUriForm 32 (generate_token_uri uuidEx) :=
  C7_token_uri_form uuidEx (by decide)

/-- C8: every error any handler can raise is the 404 NotFound whose
detail is exactly the message naming the missing entity's id (hence
contains that id's decimal form), raised precisely when the referenced
record does not resolve; when the lookup resolves, the operation raises
nothing.  (`create_asset`, `list_pnfts` and `list_assets` are total by
type and never raise.) -/
theorem C8_only_not_found (s : AppState) (pnft : pNFTCreate) (now : String)
    (pnft_id : Nat) (transfer : pNFTTransfer) (asset_id : Nat) :
    (∀ e, create_pnft s pnft now = .error e →
      e.status_code = 404 ∧ e.detail = assetNotFoundDetail pnft.asset_id ∧
      (toString pnft.asset_id).data <:+: e.detail.data ∧
      get_asset_by_id s pnft.asset_id = none) ∧
    (get_asset_by_id s pnft.asset_id ≠ none →
      ∀ e, create_pnft s pnft now ≠ .error e) ∧
    (∀ e, get_pnft s pnft_id = .error e →
      e.status_code = 404 ∧ e.detail = pnftNotFoundDetail pnft_id ∧
      (toString pnft_id).data <:+: e.detail.data ∧
      get_pnft_by_id s pnft_id = none) ∧
    (get_pnft_by_id s pnft_id ≠ none → ∀ e, get_pnft s pnft_id ≠ .error e) ∧
    (∀ e, transfer_pnft s pnft_id transfer = .error e →
      e.status_code = 404 ∧ e.detail = pnftNotFoundDetail pnft_id ∧
      (toString pnft_id).data <:+: e.detail.data ∧
      get_pnft_by_id s pnft_id = none) ∧
    (get_pnft_by_id s pnft_id ≠ none →
      ∀ e, transfer_pnft s pnft_id transfer ≠ .error e) ∧
    (∀ e, get_asset s asset_id = .error e →
      e.status_code = 404 ∧ e.detail = assetNotFoundDetail asset_id ∧
      (toString asset_id).data <:+: e.detail.data ∧
      get_asset_by_id s asset_id = none) ∧
    (get_asset_by_id s asset_id ≠ none → ∀ e, get_asset s asset_id ≠ .error e) := by
  refine ⟨?_, ?_, ?_, ?_, ?_, ?_, ?_, ?_⟩
  · intro e he
    cases hlook : get_asset_by_id s pnft.asset_id with
    | none =>
      simp only [create_pnft, hlook, Except.error.injEq] at he
      subst he
      exact ⟨rfl, rfl, toString_within_assetDetail _, rfl⟩
    | some a => simp [create_pnft, hlook] at he
  · intro hres e
    cases hlook : get_asset_by_id s pnft.asset_id with
    | none => exact absurd hlook hres
    | some a => simp [create_pnft, hlook]
  · intro e he
    cases hlook : get_pnft_by_id s pnft_id with
    | none =>
      simp only [get_pnft, hlook, Except.error.injEq] at he
      subst he
      exact ⟨rfl, rfl, toString_within_pnftDetail _, rfl⟩
    | some p => simp [get_pnft, hlook] at he
  · intro hres e
    cases hlook : get_pnft_by_id s pnft_id with
    | none => exact absurd hlook hres
    | some p => simp [get_pnft, hlook]
  · intro e he
    cases hlook : get_pnft_by_id s pnft_id with
    | none =>
      simp only [transfer_pnft, hlook, Except.error.injEq] at he
      subst he
      exact ⟨rfl, rfl, toString_within_pnftDetail _, rfl⟩
    | some p => simp [transfer_pnft, hlook] at he
  · intro hres e
    cases hlook : get_pnft_by_id s pnft_id with
    | none => exact absurd hlook hres
    | some p => simp [transfer_pnft, hlook]
  · intro e he
    cases hlook : get_asset_by_id s asset_id with
    | none =>
      simp only [get_asset, hlook, Except.error.injEq] at he
      subst he
      exact ⟨rfl, rfl, toString_within_assetDetail _, rfl⟩
    | some a => simp [get_asset, hlook] at he
  · intro hres e
    cases hlook : get_asset_by_id s asset_id with
    | none => exact absurd hlook hres
    | some a => simp [get_asset, hlook]

/-- C8 witness: on the empty initial store, tokenizing asset 1 raises
exactly the 404 naming asset 1, and fetching pNFT 1 raises exactly the
404 naming pNFT 1. -/
theorem C8_only_not_found_witness :
    (c8Err.status_code = 404 ∧ c8Err.detail = assetNotFoundDetail 1 ∧
      (toString 1).data <:+: c8Err.detail.data ∧
      get_asset_by_id initState 1 = none) ∧
    (c8Err2.status_code = 404 ∧ c8Err2.detail = pnftNotFoundDetail 1 ∧
      (toString 1).data <:+: c8Err2.detail.data ∧
      get_pnft_by_id initState 1 = none) :=
  ⟨(C8_only_not_found initState ⟨1, "ipfs://x", "Alice"⟩ "t" 1 ⟨"Bob"⟩ 1).1
      c8Err (by rfl),
   (C8_only_not_found initState ⟨1, "ipfs://x", "Alice"⟩ "t" 1 ⟨"Bob"⟩ 1).2.2.1
      c8Err2 (by rfl)⟩

end Galileo
